import Mathlib

/-!
Shallow embedding of the culper-lib vault core (`src/vault/mod.rs`) and the
configuration reader's `add_target` operation (`src/config/mod.rs`).

Rust strings are modelled as `List Char`; byte sequences (`Vec<u8>`) as
`List Nat` together with the side condition that every entry is `< 256`.
The external `base64` crate's `encode`/`decode` (standard alphabet with
`=` padding) is modelled in the `Culper.Base64` namespace.
-/

namespace Culper

/-- The closed enumeration of encryption format tags
(`EncryptionFormat` in `src/vault/mod.rs`). -/
inductive EncryptionFormat where
  | GPG_KEY
deriving DecidableEq

/-- Error kinds produced by the vault core, following the taxonomy the
`failure::Error` messages in `src/vault/mod.rs` realise:
an unknown format tag, a base64 payload that fails to decode, and a wire
string that is not a three-field `CULPER` envelope. -/
inductive CulperError where
  | unknownFormat (value : List Char)
  | base64DecodeError
  | malformedEnvelope
deriving DecidableEq

/-- Embedding of `EncryptionFormat::as_str`: the canonical string rendering
of a format tag. -/
def EncryptionFormat.as_str : EncryptionFormat → List Char
  | .GPG_KEY => "GPG_KEY".toList

/-- Embedding of `EncryptionFormat::from_str`: maps the canonical string
back to a tag, failing on any unrecognised string. -/
def EncryptionFormat.from_str (value : List Char) :
    Except CulperError EncryptionFormat :=
  if value = "GPG_KEY".toList then .ok .GPG_KEY
  else .error (.unknownFormat value)

/-- Embedding of `UnsealedVault`: a plaintext secret plus its intended
encryption format. -/
structure UnsealedVault where
  plain_secret : List Char
  format : EncryptionFormat
deriving DecidableEq

/-- Embedding of `SealedVault`: raw encrypted bytes plus the format tag
that produced them. -/
structure SealedVault where
  secret : List Nat
  format : EncryptionFormat
deriving DecidableEq

/-- Embedding of `UnsealedVault::seal` (the `SealableVault` impl): the
vault is passed, by move, to the caller-supplied transform and the
transform's result is returned unchanged. -/
def UnsealedVault.seal {ε : Type} (self : UnsealedVault)
    (f : UnsealedVault → Except ε SealedVault) : Except ε SealedVault :=
  f self

/-- Embedding of `SealedVault::unseal` (the `OpenableVault` impl): the
vault is passed, by move, to the caller-supplied transform and the
transform's result is returned unchanged. -/
def SealedVault.unseal {ε : Type} (self : SealedVault)
    (f : SealedVault → Except ε UnsealedVault) : Except ε UnsealedVault :=
  f self

namespace Base64

/-- The standard base64 alphabet, in index order. -/
def b64chars : List Char :=
  ['A', 'B', 'C', 'D', 'E', 'F', 'G', 'H', 'I', 'J', 'K', 'L', 'M',
   'N', 'O', 'P', 'Q', 'R', 'S', 'T', 'U', 'V', 'W', 'X', 'Y', 'Z',
   'a', 'b', 'c', 'd', 'e', 'f', 'g', 'h', 'i', 'j', 'k', 'l', 'm',
   'n', 'o', 'p', 'q', 'r', 's', 't', 'u', 'v', 'w', 'x', 'y', 'z',
   '0', '1', '2', '3', '4', '5', '6', '7', '8', '9', '+', '/']

/-- The character encoding a six-bit group. -/
def sixToChar (n : Nat) : Char := b64chars.getD n 'A'

/-- The six-bit group a character encodes, or `none` for a character
outside the base64 alphabet. -/
def charToSix (c : Char) : Option Nat :=
  let i := b64chars.indexOf c
  if i < b64chars.length then some i else none

/-- Model of `base64::encode` (standard alphabet, `=` padding): three bytes
become four characters; a final group of one or two bytes is padded with
`=` to a four-character block. -/
def encode : List Nat → List Char
  | [] => []
  | [a] => [sixToChar (a / 4), sixToChar (a % 4 * 16), '=', '=']
  | [a, b] => [sixToChar (a / 4), sixToChar (a % 4 * 16 + b / 16),
               sixToChar (b % 16 * 4), '=']
  | a :: b :: c :: rest =>
    sixToChar (a / 4) :: sixToChar (a % 4 * 16 + b / 16) ::
    sixToChar (b % 16 * 4 + c / 64) :: sixToChar (c % 64) :: encode rest

/-- Model of `base64::decode` (standard alphabet): four-character blocks
decode to three bytes, a final block may carry `=` padding (or be an
unpadded two- or three-character remainder); any character outside the
alphabet, misplaced padding, or a remainder of one character is an error
(`none`). -/
def decode : List Char → Option (List Nat)
  | [] => some []
  | [a, b] =>
    match charToSix a, charToSix b with
    | some s1, some s2 => some [s1 * 4 + s2 / 16]
    | _, _ => none
  | [a, b, c] =>
    match charToSix a, charToSix b, charToSix c with
    | some s1, some s2, some s3 =>
      some [s1 * 4 + s2 / 16, s2 % 16 * 16 + s3 / 4]
    | _, _, _ => none
  | a :: b :: c :: d :: rest =>
    match charToSix a, charToSix b, charToSix c, charToSix d with
    | some s1, some s2, some s3, some s4 =>
      match decode rest with
      | some tl =>
        some ((s1 * 4 + s2 / 16) :: (s2 % 16 * 16 + s3 / 4) ::
              (s3 % 4 * 64 + s4) :: tl)
      | none => none
    | some s1, some s2, some s3, none =>
      if d = '=' then
        if rest = [] then some [s1 * 4 + s2 / 16, s2 % 16 * 16 + s3 / 4]
        else none
      else none
    | some s1, some s2, none, none =>
      if c = '=' then
        if d = '=' then
          if rest = [] then some [s1 * 4 + s2 / 16] else none
        else none
      else none
    | _, _, _, _ => none
  | _ => none

end Base64

/-- Embedding of `SealedVault::to_string` (the `OpenableVault` impl):
`format!("CULPER.{}.{}", self.format.as_str(), encode(&self.secret))`. -/
def SealedVault.to_string (v : SealedVault) : List Char :=
  "CULPER".toList ++ '.' :: (v.format.as_str ++ '.' :: Base64.encode v.secret)

/-- Model of Rust's `str::split('.')` as used by `parse`: splits a
character list at every `.`, keeping empty fields, so the result always
has one more field than there are dots. -/
def splitDot : List Char → List (List Char)
  | [] => [[]]
  | c :: rest =>
    let r := splitDot rest
    if c = '.' then [] :: r
    else (c :: r.headI) :: r.tail

/-- Embedding of the free function `parse` in `src/vault/mod.rs`: splits
the input on `.`; on exactly three fields with first field `CULPER`, it
base64-decodes the third field (left argument, evaluated first) and then
parses the second as a format; any other shape is a malformed envelope. -/
def parse (value : List Char) : Except CulperError SealedVault :=
  match splitDot value with
  | [tag, encryption_format, secret_bytes] =>
    if tag = "CULPER".toList then
      match Base64.decode secret_bytes with
      | some secret =>
        match EncryptionFormat.from_str encryption_format with
        | .ok format => .ok ⟨secret, format⟩
        | .error e => .error e
      | none => .error .base64DecodeError
    else .error .malformedEnvelope
  | _ => .error .malformedEnvelope

/-- Embedding of `UserConfig` from `src/config/mod.rs`. -/
structure UserConfig where
  fingerprint : String
  name : String
deriving DecidableEq

/-- Embedding of `TargetConfig` from `src/config/mod.rs`. -/
structure TargetConfig where
  id : String
  host : String
deriving DecidableEq

/-- Embedding of `CulperConfig` from `src/config/mod.rs`. -/
structure CulperConfig where
  targets : Option (List TargetConfig)
  owners : Option (List UserConfig)
  admins : Option (List UserConfig)
  me : UserConfig
deriving DecidableEq

/-- Embedding of `ConfigReader` from `src/config/mod.rs`; the `PathBuf`
is modelled as an opaque string. -/
structure ConfigReader where
  path : String
  config : Option CulperConfig
deriving DecidableEq

/-- Embedding of `ConfigReader::add_target`: the `&mut self` method is
modelled as returning the `Result` together with the updated reader. -/
def ConfigReader.add_target (self : ConfigReader) (host id : String) :
    Except String Unit × ConfigReader :=
  match self.config with
  | some config =>
    match config.targets with
    | none =>
      (.ok (), { self with
        config := some { config with
          targets := some [{ host := host, id := id }] } })
    | some targets =>
      (.ok (), { self with
        config := some { config with
          targets := some (targets ++ [{ host := host, id := id }]) } })
  | none => (.error "Config is not set.", self)

end Culper

namespace Culper

/-! ### Helper lemmas about the base64 model -/

theorem Base64.charToSix_sixToChar :
    ∀ n < 64, Base64.charToSix (Base64.sixToChar n) = some n := by decide

theorem Base64.charToSix_pad : Base64.charToSix '=' = none := by decide

theorem Base64.b64chars_length : Base64.b64chars.length = 64 := by decide

theorem Base64.sixToChar_mem (n : Nat) : Base64.sixToChar n ∈ Base64.b64chars := by
  have hd : ∀ m < 64, Base64.sixToChar m ∈ Base64.b64chars := by decide
  rcases lt_or_ge n 64 with h | h
  · exact hd n h
  · unfold Base64.sixToChar
    rw [List.getD_eq_default]
    · decide
    · rw [Base64.b64chars_length]; exact h

theorem Base64.mem_b64chars_ne_dot : ∀ c ∈ Base64.b64chars, c ≠ '.' := by decide

theorem Base64.encode_mem {bs : List Nat} :
    ∀ c ∈ Base64.encode bs, c ∈ Base64.b64chars ∨ c = '=' := by
  induction bs using Base64.encode.induct with
  | case1 => intro c hc; simp [Base64.encode] at hc
  | case2 a =>
    intro c hc
    simp [Base64.encode] at hc
    rcases hc with rfl | rfl | rfl
    · exact .inl (Base64.sixToChar_mem _)
    · exact .inl (Base64.sixToChar_mem _)
    · exact .inr rfl
  | case3 a b =>
    intro c hc
    simp [Base64.encode] at hc
    rcases hc with rfl | rfl | rfl | rfl
    · exact .inl (Base64.sixToChar_mem _)
    · exact .inl (Base64.sixToChar_mem _)
    · exact .inl (Base64.sixToChar_mem _)
    · exact .inr rfl
  | case4 a b c rest ih =>
    intro x hx
    simp [Base64.encode] at hx
    rcases hx with rfl | rfl | rfl | rfl | hx
    · exact .inl (Base64.sixToChar_mem _)
    · exact .inl (Base64.sixToChar_mem _)
    · exact .inl (Base64.sixToChar_mem _)
    · exact .inl (Base64.sixToChar_mem _)
    · exact ih x hx

theorem Base64.encode_ne_dot {bs : List Nat} :
    ∀ c ∈ Base64.encode bs, c ≠ '.' := by
  intro c hc
  rcases Base64.encode_mem c hc with h | rfl
  · exact Base64.mem_b64chars_ne_dot c h
  · decide

theorem Base64.decode_encode {bs : List Nat} (h : ∀ b ∈ bs, b < 256) :
    Base64.decode (Base64.encode bs) = some bs := by
  induction bs using Base64.encode.induct with
  | case1 => rfl
  | case2 a =>
    have ha : a < 256 := h a (by simp)
    have h1 : a / 4 < 64 := by omega
    have h2 : a % 4 * 16 < 64 := by omega
    simp [Base64.encode, Base64.decode, Base64.charToSix_sixToChar _ h1,
      Base64.charToSix_sixToChar _ h2, Base64.charToSix_pad]
    omega
  | case3 a b =>
    have ha : a < 256 := h a (by simp)
    have hb : b < 256 := h b (by simp)
    have h1 : a / 4 < 64 := by omega
    have h2 : a % 4 * 16 + b / 16 < 64 := by omega
    have h3 : b % 16 * 4 < 64 := by omega
    simp [Base64.encode, Base64.decode, Base64.charToSix_sixToChar _ h1,
      Base64.charToSix_sixToChar _ h2, Base64.charToSix_sixToChar _ h3,
      Base64.charToSix_pad]
    omega
  | case4 a b c rest ih =>
    have ha : a < 256 := h a (by simp)
    have hb : b < 256 := h b (by simp)
    have hc : c < 256 := h c (by simp)
    have h1 : a / 4 < 64 := by omega
    have h2 : a % 4 * 16 + b / 16 < 64 := by omega
    have h3 : b % 16 * 4 + c / 64 < 64 := by omega
    have h4 : c % 64 < 64 := by omega
    have ih' := ih (fun x hx => h x (by simp [hx]))
    simp [Base64.encode, Base64.decode, Base64.charToSix_sixToChar _ h1,
      Base64.charToSix_sixToChar _ h2, Base64.charToSix_sixToChar _ h3,
      Base64.charToSix_sixToChar _ h4, ih']
    omega

/-! ### Helper lemmas about splitting on the dot delimiter -/

theorem splitDot_no_dot {cs : List Char} (h : ∀ c ∈ cs, c ≠ '.') :
    splitDot cs = [cs] := by
  induction cs with
  | nil => rfl
  | cons c rest ih =>
    have hc : c ≠ '.' := h c (by simp)
    have ih' := ih (fun x hx => h x (by simp [hx]))
    simp [splitDot, hc, ih']

theorem splitDot_append {cs rest : List Char} (h : ∀ c ∈ cs, c ≠ '.') :
    splitDot (cs ++ '.' :: rest) = cs :: splitDot rest := by
  induction cs with
  | nil => simp [splitDot]
  | cons c cs ih =>
    have hc : c ≠ '.' := h c (by simp)
    have ih' := ih (fun x hx => h x (by simp [hx]))
    simp [splitDot, hc, ih']

end Culper

namespace Culper

/-! ### Claim theorems -/

/-- C1: Wire round-trip. For any byte sequence `secret` and the valid
format `GPG_KEY`, parsing the canonical text rendering of a `SealedVault`
holding that secret and format succeeds and yields a `SealedVault` whose
secret equals the original byte-for-byte and whose format equals the
original format. -/
theorem wire_round_trip (secret : List Nat) (h : ∀ b ∈ secret, b < 256) :
    parse (SealedVault.to_string ⟨secret, .GPG_KEY⟩) =
      .ok ⟨secret, .GPG_KEY⟩ := by
  have hsplit : splitDot (SealedVault.to_string ⟨secret, .GPG_KEY⟩) =
      ["CULPER".toList, "GPG_KEY".toList, Base64.encode secret] := by
    show splitDot ("CULPER".toList ++ '.' ::
      ("GPG_KEY".toList ++ '.' :: Base64.encode secret)) = _
    rw [splitDot_append (by decide), splitDot_append (by decide),
      splitDot_no_dot Base64.encode_ne_dot]
  simp [parse, hsplit, Base64.decode_encode h, EncryptionFormat.from_str]

/-- Witness for C1 at the concrete secret `[0, 255, 77]`. -/
theorem wire_round_trip_witness :
    parse (SealedVault.to_string ⟨[0, 255, 77], .GPG_KEY⟩) =
      .ok ⟨[0, 255, 77], .GPG_KEY⟩ :=
  wire_round_trip [0, 255, 77] (by decide)

/-- C2: Encode format. `to_string` returns exactly
`"CULPER.<FORMAT>.<BASE64>"` where the format field is the canonical
rendering `as_str` of the vault's format, and the payload is the base64
encoding (standard alphabet, `=` padding) of the raw secret bytes; the
whole output is ASCII. -/
theorem to_string_envelope (v : SealedVault) :
    v.to_string = "CULPER".toList ++
      '.' :: (v.format.as_str ++ '.' :: Base64.encode v.secret) ∧
    (∀ c ∈ v.to_string, c.toNat < 128) ∧
    (∀ c ∈ Base64.encode v.secret, c ∈ Base64.b64chars ∨ c = '=') := by
  refine ⟨rfl, ?_, fun c hc => Base64.encode_mem c hc⟩
  intro c hc
  have hascii : ∀ x ∈ Base64.b64chars, x.toNat < 128 := by decide
  obtain ⟨secret, format⟩ := v
  cases format
  simp only [SealedVault.to_string, EncryptionFormat.as_str,
    List.mem_append, List.mem_cons] at hc
  rcases hc with h | rfl | h | rfl | h
  · exact (by decide : ∀ x ∈ "CULPER".toList, x.toNat < 128) c h
  · decide
  · exact (by decide : ∀ x ∈ "GPG_KEY".toList, x.toNat < 128) c h
  · decide
  · rcases Base64.encode_mem c h with hm | rfl
    · exact hascii c hm
    · decide

/-- C3: Format tag round-trip. For every tag of the closed
`EncryptionFormat` enumeration, `from_str (as_str t) = Ok t`, and `as_str`
is a fixed canonical rendering (deterministically `"GPG_KEY"` for the one
existing tag). -/
theorem format_round_trip (t : EncryptionFormat) :
    EncryptionFormat.from_str t.as_str = .ok t ∧
    t.as_str = "GPG_KEY".toList := by
  cases t
  exact ⟨rfl, rfl⟩

/-- C4: Seal/unseal pass-through. `seal` hands the unsealed vault itself
to the supplied transform and returns the transform's result unchanged
(both `Ok` and `Err` verbatim), and symmetrically for `unseal`. -/
theorem seal_unseal_pass_through {ε : Type} (v : UnsealedVault)
    (f : UnsealedVault → Except ε SealedVault)
    (s : SealedVault) (g : SealedVault → Except ε UnsealedVault) :
    v.seal f = f v ∧ s.unseal g = g s :=
  ⟨rfl, rfl⟩

/-- C5: Malformed envelope rejection. `parse` fails with the
malformed-envelope error for every input that does not split on `.` into
exactly three fields with first field `CULPER`; in particular for the
two-field, four-field and wrong-leading-tag examples. -/
theorem parse_malformed_envelope :
    (∀ value : List Char,
      ¬ ((splitDot value).length = 3 ∧
         (splitDot value).head? = some "CULPER".toList) →
      parse value = .error .malformedEnvelope) ∧
    parse "CULPER.GPG_KEY".toList = .error .malformedEnvelope ∧
    parse "CULPER.GPG_KEY.abc.def".toList = .error .malformedEnvelope ∧
    parse "NOTCULPER.GPG_KEY.YWJj".toList = .error .malformedEnvelope := by
  refine ⟨?_, rfl, rfl, rfl⟩
  intro value hvc
  simp only [parse]
  split
  · rename_i t f p hs
    have ht : t ≠ "CULPER".toList := by
      intro h
      exact hvc (by simp [hs, h])
    rw [if_neg ht]
  · rfl

/-- Witness for C5 at the dot-free input `"XYZ"`. -/
theorem parse_malformed_envelope_witness :
    parse "XYZ".toList = .error .malformedEnvelope :=
  parse_malformed_envelope.1 "XYZ".toList (by decide)

/-- C6: Unknown format rejection. `from_str` on any string other than
`"GPG_KEY"` fails with the unknown-format error (never a default tag), and
`parse` on a well-formed three-field `CULPER` envelope whose payload
decodes but whose format field is unrecognised fails with the same
error. -/
theorem unknown_format_rejection :
    (∀ value : List Char, value ≠ "GPG_KEY".toList →
      EncryptionFormat.from_str value = .error (.unknownFormat value)) ∧
    (∀ value f p : List Char,
      splitDot value = ["CULPER".toList, f, p] →
      (Base64.decode p).isSome → f ≠ "GPG_KEY".toList →
      parse value = .error (.unknownFormat f)) ∧
    EncryptionFormat.from_str "NOT_A_FORMAT".toList =
      .error (.unknownFormat "NOT_A_FORMAT".toList) ∧
    parse "CULPER.NOT_A_FORMAT.YWJj".toList =
      .error (.unknownFormat "NOT_A_FORMAT".toList) := by
  refine ⟨?_, ?_, rfl, rfl⟩
  · intro value hv
    unfold EncryptionFormat.from_str
    rw [if_neg hv]
  · intro value f p hs hp hf
    obtain ⟨bs, hbs⟩ := Option.isSome_iff_exists.mp hp
    simp only [parse, hs, hbs]
    unfold EncryptionFormat.from_str
    rw [if_neg hf]
    simp

/-- Witness for C6: an unrecognised tag string and a well-formed envelope
carrying it are both rejected with the unknown-format error. -/
theorem unknown_format_rejection_witness :
    EncryptionFormat.from_str "X".toList =
      .error (.unknownFormat "X".toList) ∧
    parse "CULPER.ABC.YWJj".toList = .error (.unknownFormat "ABC".toList) :=
  ⟨unknown_format_rejection.1 "X".toList (by decide),
   unknown_format_rejection.2.1 "CULPER.ABC.YWJj".toList "ABC".toList
     "YWJj".toList (by decide) (by decide) (by decide)⟩

/-- C7: Invalid base64 rejection. On a three-field `CULPER` envelope with
the recognised format `GPG_KEY` whose payload field is not valid base64,
`parse` fails with the base64-decode error; in particular on
`"CULPER.GPG_KEY.not base64!!"`. -/
theorem invalid_base64_rejection :
    (∀ value p : List Char,
      splitDot value = ["CULPER".toList, "GPG_KEY".toList, p] →
      Base64.decode p = none →
      parse value = .error .base64DecodeError) ∧
    parse "CULPER.GPG_KEY.not base64!!".toList =
      .error .base64DecodeError := by
  refine ⟨?_, rfl⟩
  intro value p hs hp
  simp [parse, hs, hp]

/-- Witness for C7 at the envelope `"CULPER.GPG_KEY.!"`. -/
theorem invalid_base64_rejection_witness :
    parse "CULPER.GPG_KEY.!".toList = .error .base64DecodeError :=
  invalid_base64_rejection.1 "CULPER.GPG_KEY.!".toList "!".toList
    (by decide) (by decide)

/-- C8: Implicit error priority. On any three-field `CULPER` envelope
whose payload is not valid base64, `parse` returns the base64-decode
error regardless of the format field, because the payload is decoded
before the format is parsed; in particular the base64 error wins over the
unknown format in `"CULPER.NOT_A_FORMAT.!"`. -/
theorem base64_error_priority :
    (∀ value f p : List Char,
      splitDot value = ["CULPER".toList, f, p] →
      Base64.decode p = none →
      parse value = .error .base64DecodeError) ∧
    parse "CULPER.NOT_A_FORMAT.!".toList = .error .base64DecodeError := by
  refine ⟨?_, rfl⟩
  intro value f p hs hp
  simp [parse, hs, hp]

/-- Witness for C8 at the envelope `"CULPER.FMT.??"`, whose format field
is also unrecognised. -/
theorem base64_error_priority_witness :
    parse "CULPER.FMT.??".toList = .error .base64DecodeError :=
  base64_error_priority.1 "CULPER.FMT.??".toList "FMT".toList "??".toList
    (by decide) (by decide)

/-- C9: Totality of `parse` and the empty-secret round-trip. `parse`
returns an `ok` or an `error` on every input (the model is a total
function), and a `SealedVault` with empty secret round-trips through the
wire text `"CULPER.GPG_KEY."`: the empty base64 field decodes to the
empty byte sequence, and rendering the empty vault produces exactly that
text. -/
theorem parse_total_empty_round_trip :
    (∀ value : List Char,
      (∃ v, parse value = .ok v) ∨ (∃ e, parse value = .error e)) ∧
    parse "CULPER.GPG_KEY.".toList = .ok ⟨[], .GPG_KEY⟩ ∧
    SealedVault.to_string ⟨[], .GPG_KEY⟩ = "CULPER.GPG_KEY.".toList := by
  refine ⟨?_, rfl, rfl⟩
  intro value
  cases h : parse value with
  | ok v => exact .inl ⟨v, rfl⟩
  | error e => exact .inr ⟨e, rfl⟩

/-- C10: `add_target` contract. The call fails exactly when the reader's
in-memory config is unset, and on failure the reader is unchanged; on
success it appends one `TargetConfig` with the given host and id to the
end of the targets list (creating a singleton list when targets was
`none`) and leaves the path and the config's `me`, `owners` and `admins`
unchanged. -/
theorem add_target_contract (r : ConfigReader) (host id : String) :
    (r.config = none →
      r.add_target host id = (.error "Config is not set.", r)) ∧
    (∀ cfg : CulperConfig, r.config = some cfg →
      ∃ cfg' : CulperConfig,
        r.add_target host id = (.ok (), ⟨r.path, some cfg'⟩) ∧
        cfg'.targets = some (cfg.targets.getD [] ++ [⟨id, host⟩]) ∧
        cfg'.owners = cfg.owners ∧ cfg'.admins = cfg.admins ∧
        cfg'.me = cfg.me) := by
  constructor
  · intro h
    simp [ConfigReader.add_target, h]
  · intro cfg h
    cases ht : cfg.targets with
    | none =>
      refine ⟨{ cfg with targets := some [⟨id, host⟩] }, ?_, by simp [ht], rfl, rfl, rfl⟩
      simp [ConfigReader.add_target, h, ht]
    | some ts =>
      refine ⟨{ cfg with targets := some (ts ++ [⟨id, host⟩]) }, ?_, by simp [ht], rfl, rfl, rfl⟩
      simp [ConfigReader.add_target, h, ht]

/-- Witness for C10: the failure case at an unset config leaves the
reader unchanged, and the success case at a set config reports `ok`. -/
theorem add_target_contract_witness :
    ConfigReader.add_target ⟨"cfgpath", none⟩ "example.org" "id1" =
      (.error "Config is not set.", ⟨"cfgpath", none⟩) ∧
    (ConfigReader.add_target
      ⟨"cfgpath", some ⟨none, none, none, ⟨"fp", "me"⟩⟩⟩
      "example.org" "id1").1 = .ok () := by
  constructor
  · exact (add_target_contract ⟨"cfgpath", none⟩ "example.org" "id1").1 rfl
  · obtain ⟨cfg', heq, -⟩ :=
      (add_target_contract ⟨"cfgpath", some ⟨none, none, none, ⟨"fp", "me"⟩⟩⟩
        "example.org" "id1").2 ⟨none, none, none, ⟨"fp", "me"⟩⟩ rfl
    rw [heq]

end Culper
